import Mathlib

/-!
Verification of the chart-image storage and viewer logic of a trading-journal
client: the `ChartImageService` storage policy (attach, delete, storage stats,
orphan cleanup, validation) and the `UniversalChartViewer` filtering,
navigation and zoom logic, embedded shallowly from the TypeScript source.
-/

namespace ChartSpec

/-- The slot an image occupies on a trade: before-entry or after-exit. -/
inductive ImageType where
  | beforeEntry
  | afterExit
  deriving DecidableEq, Repr

/-- Storage mode recorded on a chart image descriptor. -/
inductive Storage where
  | inlineStore
  | blobStore
  deriving DecidableEq, Repr

/-- Descriptor of an attached chart image (`ChartImage` in `types/trade`). -/
structure ChartImage where
  id : String
  filename : String
  mimeType : String
  size : Nat
  uploadedAt : Nat
  storage : Storage
  blobId : Option String := none
  compressed : Bool := false
  originalSize : Option Nat := none
  deriving DecidableEq, Repr

/-- A blob row in the image store (`ChartImageBlob`); binary payload omitted. -/
structure ChartImageBlob where
  id : String
  tradeId : String
  imageType : ImageType
  filename : String
  mimeType : String
  size : Nat
  deriving DecidableEq, Repr

/-! ## Viewer: filtering (UniversalChartViewer.tsx, `filteredImages`) -/

/-- The viewer's type filter: all charts, or one image slot. -/
inductive FilterType where
  | all
  | beforeEntry
  | afterExit
  deriving DecidableEq, Repr

/-- An image row as the viewer sees it: blob row joined with trade context
(`ChartImageWithContext`); only the fields the filter reads are kept. -/
structure ViewerImage where
  id : String
  imageType : ImageType
  tradeName : Option String
  deriving DecidableEq, Repr

/-- Test `img.imageType === filter` for a non-`all` filter value. -/
def typeMatches (ty : ImageType) (f : FilterType) : Bool :=
  match ty, f with
  | .beforeEntry, .beforeEntry => true
  | .afterExit, .afterExit => true
  | _, _ => false

/-- Character-list prefix test used to define the substring test below. -/
def charsHasPref : List Char → List Char → Bool
  | [], _ => true
  | _ :: _, [] => false
  | c :: cs, d :: ds => c == d && charsHasPref cs ds

/-- Character-list infix test used to define the substring test below. -/
def charsHasSub (pat : List Char) : List Char → Bool
  | [] => charsHasPref pat []
  | d :: ds => charsHasPref pat (d :: ds) || charsHasSub pat ds

/-- JavaScript `s.includes(pat)`: `pat` occurs as a substring of `s`. -/
def strIncludes (s pat : String) : Bool :=
  charsHasSub pat.toList s.toList

/-- Predicate `img.tradeName?.toLowerCase().includes(symbolSearch.toLowerCase())`:
a missing trade name yields `undefined`, which is falsy, so it never matches. -/
def symbolMatches (img : ViewerImage) (search : String) : Bool :=
  match img.tradeName with
  | none => false
  | some n => strIncludes n.toLower search.toLower

/-- Definition `filteredImages` from `UniversalChartViewer.tsx`: apply the type filter
when the filter is not `all`, then the symbol-substring filter when the
search string is non-empty (JS truthiness of a string). -/
def filteredImages (allImages : List ViewerImage) (filter : FilterType)
    (symbolSearch : String) : List ViewerImage :=
  let images := if filter = FilterType.all then allImages
    else allImages.filter (fun img => typeMatches img.imageType filter)
  if symbolSearch = "" then images
  else images.filter (fun img => symbolMatches img symbolSearch)

/-- The two individual predicates, each vacuously true when its control is
inactive (`all` filter / empty search). -/
def passesTypeFilter (f : FilterType) (img : ViewerImage) : Bool :=
  f = FilterType.all || typeMatches img.imageType f

/-- Symbol predicate, vacuously true for the empty search string. -/
def passesSymbolFilter (search : String) (img : ViewerImage) : Bool :=
  search = "" || symbolMatches img search

/-! ## Viewer: zoom (UniversalChartViewer.tsx) -/

/-- Handler `resetZoom` sets the zoom level back to 1. -/
def resetZoom : ℚ := 1

/-- Handler `handleZoomIn`: multiply by 1.5, capped at 5. -/
def handleZoomIn (zoom : ℚ) : ℚ := min (zoom * (3 / 2)) 5

/-- Handler `handleZoomOut`: divide by 1.5, floored at 0.5. -/
def handleZoomOut (zoom : ℚ) : ℚ := max (zoom / (3 / 2)) (1 / 2)

/-- A user zoom action. -/
inductive ZoomOp where
  | zoomIn
  | zoomOut
  | reset
  deriving DecidableEq, Repr

/-- Apply one zoom action to the current zoom level. -/
def applyZoomOp (z : ℚ) : ZoomOp → ℚ
  | .zoomIn => handleZoomIn z
  | .zoomOut => handleZoomOut z
  | .reset => resetZoom

/-- Run a sequence of zoom actions from the initial zoom level 1. -/
def runZoomOps (ops : List ZoomOp) : ℚ :=
  ops.foldl applyZoomOp 1

/-! ## Viewer: navigation (UniversalChartViewer.tsx) -/

/-- Handler `navigateNext`: advance only while strictly before the last filtered
image (`currentIndex < filteredImages.length - 1`; for an empty list the
JS guard `i < -1` is false, as is `i < 0 - 1` on naturals). -/
def navigateNext (len i : Nat) : Nat :=
  if i < len - 1 then i + 1 else i

/-- Handler `navigatePrevious`: step back only while `currentIndex > 0`. -/
def navigatePrevious (len i : Nat) : Nat :=
  if 0 < i then i - 1 else i

/-- A navigation action. -/
inductive NavOp where
  | next
  | prev
  deriving DecidableEq, Repr

/-- Apply one navigation action given the filtered-list length. -/
def applyNavOp (len i : Nat) : NavOp → Nat
  | .next => navigateNext len i
  | .prev => navigatePrevious len i

/-- Run a sequence of navigation actions starting from index 0. -/
def runNavOps (len : Nat) (ops : List NavOp) : Nat :=
  ops.foldl (applyNavOp len) 0

end ChartSpec

namespace ChartSpec

/-! ## Claim C4: filter composition -/

/-- Claim C4: applying the type filter then the symbol-substring filter returns
exactly the images satisfying both predicates, in the original order: the
two-stage filter equals one order-preserving filter by the conjunction. -/
theorem filteredImages_eq_inter (allImages : List ViewerImage)
    (f : FilterType) (search : String) :
    filteredImages allImages f search =
      allImages.filter
        (fun img => passesTypeFilter f img && passesSymbolFilter search img) := by
  unfold filteredImages passesTypeFilter passesSymbolFilter
  by_cases hf : f = FilterType.all <;> by_cases hs : search = "" <;>
    simp [hf, hs, List.filter_filter, Bool.and_comm]

/-! ## Claim C5: zoom bounds -/

/-- Single-step preservation of the zoom bounds. -/
theorem applyZoomOp_bounds {z : ℚ} (hlo : 1 / 2 ≤ z) (hhi : z ≤ 5)
    (op : ZoomOp) : 1 / 2 ≤ applyZoomOp z op ∧ applyZoomOp z op ≤ 5 := by
  cases op with
  | zoomIn =>
    unfold applyZoomOp handleZoomIn
    constructor
    · apply le_min <;> linarith
    · exact min_le_right _ _
  | zoomOut =>
    unfold applyZoomOp handleZoomOut
    constructor
    · exact le_max_right _ _
    · apply max_le
      · rw [div_le_iff₀ (by norm_num : (0:ℚ) < 3 / 2)]
        linarith
      · norm_num
  | reset =>
    unfold applyZoomOp resetZoom
    norm_num

/-- Bounds hold along any fold of zoom actions from an in-bounds start. -/
theorem foldl_zoom_bounds (ops : List ZoomOp) :
    ∀ z : ℚ, 1 / 2 ≤ z → z ≤ 5 →
      1 / 2 ≤ ops.foldl applyZoomOp z ∧ ops.foldl applyZoomOp z ≤ 5 := by
  induction ops with
  | nil => intro z hlo hhi; exact ⟨hlo, hhi⟩
  | cons op rest ih =>
    intro z hlo hhi
    have h := applyZoomOp_bounds hlo hhi op
    exact ih _ h.1 h.2

/-- Claim C5: starting from the initial zoom of 1, every sequence of zoom-in
(multiply by 1.5 capped at 5), zoom-out (divide by 1.5 floored at 0.5) and
reset operations keeps the zoom level within [0.5, 5]. -/
theorem runZoomOps_bounded (ops : List ZoomOp) :
    1 / 2 ≤ runZoomOps ops ∧ runZoomOps ops ≤ 5 :=
  foldl_zoom_bounds ops 1 (by norm_num) (by norm_num)

/-! ## Claim C6: navigation clamping -/

/-- Single-step preservation of the index bound `i ≤ len - 1`. -/
theorem applyNavOp_le {len i : Nat} (h : i ≤ len - 1) (op : NavOp) :
    applyNavOp len i op ≤ len - 1 := by
  cases op <;>
    simp only [applyNavOp, navigateNext, navigatePrevious] <;>
    split <;> omega

/-- The index bound holds along any fold of navigation actions. -/
theorem foldl_nav_le (len : Nat) (ops : List NavOp) :
    ∀ i : Nat, i ≤ len - 1 → ops.foldl (applyNavOp len) i ≤ len - 1 := by
  induction ops with
  | nil => intro i h; exact h
  | cons op rest ih =>
    intro i h
    exact ih _ (applyNavOp_le h op)

/-- Claim C6: navigating past the ends is a no-op — `navigateNext` is the identity
at or beyond the last filtered index, `navigatePrevious` is the identity at
index 0 — and for a non-empty filtered list every sequence of navigation
actions starting from index 0 keeps the index within [0, length - 1]. -/
theorem navigation_clamped (len : Nat) (hlen : 1 ≤ len) :
    (∀ i : Nat, len - 1 ≤ i → navigateNext len i = i) ∧
    (∀ i : Nat, i ≤ 0 → navigatePrevious len i = i) ∧
    (∀ ops : List NavOp, runNavOps len ops ≤ len - 1) := by
  refine ⟨?_, ?_, ?_⟩
  · intro i hi
    simp only [navigateNext]
    split <;> omega
  · intro i hi
    simp only [navigatePrevious]
    split <;> omega
  · intro ops
    exact foldl_nav_le len ops 0 (by omega)

/-- Witness for C6 at a concrete length and action sequence. -/
theorem navigation_clamped_witness :
    navigateNext 3 2 = 2 ∧ navigatePrevious 3 0 = 0 ∧
      runNavOps 3 [NavOp.next, NavOp.next, NavOp.next, NavOp.prev] ≤ 2 := by
  have h := navigation_clamped 3 (by decide)
  exact ⟨h.1 2 (by decide), h.2.1 0 (by decide),
    h.2.2 [NavOp.next, NavOp.next, NavOp.next, NavOp.prev]⟩

end ChartSpec

namespace ChartSpec

/-! ## Persistence gateway (DatabaseService, modelled) -/

/-- The blob store: the list of currently stored blob rows. -/
abbrev BlobStoreState := List ChartImageBlob

namespace DatabaseService

/-- Modelled from the spec: `DatabaseService.saveChartImageBlob` from
`db/database` is not under `src/`; per the spec the gateway exposes
save-blob-by-id, which persists the row and reports success. Whether the
underlying write succeeds is the `ok` parameter; a failed write stores
nothing. -/
def saveChartImageBlob (store : BlobStoreState) (b : ChartImageBlob)
    (ok : Bool) : Bool × BlobStoreState :=
  if ok then (true, store ++ [b]) else (false, store)

/-- Modelled from the spec: `DatabaseService.deleteChartImageBlob` from
`db/database` is not under `src/`; per the spec the gateway exposes
delete-blob-by-id, which removes the row with that id and reports success.
A failed delete leaves the store unchanged. -/
def deleteChartImageBlob (store : BlobStoreState) (bid : String)
    (ok : Bool) : Bool × BlobStoreState :=
  if ok then (true, store.filter (fun b => b.id != bid)) else (false, store)

/-- Modelled from the spec: `DatabaseService.deleteTradeChartImageBlobs` from
`db/database` is not under `src/`; per the spec the gateway exposes
delete-all-blobs-for-trade, which removes every row owned by the trade and
reports success. -/
def deleteTradeChartImageBlobs (store : BlobStoreState) (tradeId : String)
    (ok : Bool) : Bool × BlobStoreState :=
  if ok then (true, store.filter (fun b => b.tradeId != tradeId))
  else (false, store)

end DatabaseService

/-! ## ChartImageService (src/unnamed/part_000) -/

namespace ChartImageService

/-- Method `ChartImageService.deleteChartImage`: for a blob-stored descriptor
with a blob id, delete that blob row (a reported delete failure is only
logged); in every non-throwing run the method returns `true`. The outcome of
the underlying gateway delete is given by the oracle `delOk`. -/
def deleteChartImage (delOk : String → Bool) (store : BlobStoreState)
    (tradeId : String) (imageType : ImageType) (chartImage : ChartImage) :
    Bool × BlobStoreState :=
  match chartImage.storage, chartImage.blobId with
  | Storage.blobStore, some bid =>
    (true, (DatabaseService.deleteChartImageBlob store bid (delOk bid)).2)
  | _, _ => (true, store)

/-- Method `ChartImageService.deleteTradeChartImages`: delete all blob rows of
the trade (a reported failure is only logged) and return `true`. -/
def deleteTradeChartImages (delAllOk : Bool) (store : BlobStoreState)
    (tradeId : String) : Bool × BlobStoreState :=
  (true, (DatabaseService.deleteTradeChartImageBlobs store tradeId delAllOk).2)

/-- The statistics record returned by `getStorageStats`. -/
structure StorageStats where
  totalImages : Nat
  totalSize : Nat
  inlineImages : Nat
  inlineSize : Nat
  blobImages : Nat
  blobSize : Nat
  deriving DecidableEq, Repr

/-- Method `ChartImageService.getStorageStats`: aggregate count and size over
the blob rows only; inline counters are hard-coded to 0. -/
def getStorageStats (allBlobs : BlobStoreState) : StorageStats :=
  let blobSize := allBlobs.foldl (fun total blob => total + blob.size) 0
  { totalImages := allBlobs.length
    totalSize := blobSize
    inlineImages := 0
    inlineSize := 0
    blobImages := allBlobs.length
    blobSize := blobSize }

/-- Orphan test of the cleanup loop: the blob's trade id is absent from the
current trade-id set (`!tradeIds.has(blob.tradeId)`). -/
def isOrphan (tradeIds : List String) (blob : ChartImageBlob) : Bool :=
  !(tradeIds.contains blob.tradeId)

/-- One iteration of the `cleanupOrphanedBlobs` loop: skip blobs of live
trades; for an orphan, issue the gateway delete and bump the cleaned or the
errors counter according to its reported outcome. -/
def cleanupStep (tradeIds : List String) (delOk : String → Bool)
    (acc : BlobStoreState × Nat × Nat) (blob : ChartImageBlob) :
    BlobStoreState × Nat × Nat :=
  if tradeIds.contains blob.tradeId then acc
  else
    let del := DatabaseService.deleteChartImageBlob acc.1 blob.id (delOk blob.id)
    if del.1 then (del.2, acc.2.1 + 1, acc.2.2)
    else (del.2, acc.2.1, acc.2.2 + 1)

/-- Method `ChartImageService.cleanupOrphanedBlobs`: iterate over a snapshot
of all blob rows, deleting each orphan, and return the final store with the
cleaned and errors counters. -/
def cleanupOrphanedBlobs (allBlobs : BlobStoreState) (tradeIds : List String)
    (delOk : String → Bool) : BlobStoreState × Nat × Nat :=
  allBlobs.foldl (cleanupStep tradeIds delOk) (allBlobs, 0, 0)

end ChartImageService

/-! ## Upload widget (ChartImageUpload.tsx) -/

/-- Callback `handleDelete` from `ChartImageUpload.tsx`, restricted to its
effect on the in-memory image slot: with no current image or when disabled it
returns early; otherwise the slot is cleared exactly when the service
reported success (`onImageDeleted` fires only on `success`). -/
def handleDelete (disabled : Bool) (currentImage : Option ChartImage)
    (deleteResult : Bool) : Option ChartImage :=
  match currentImage with
  | none => none
  | some img =>
    if disabled then some img
    else if deleteResult then none else some img

end ChartSpec

namespace ChartSpec

/-! ## Claim C9: storage stats -/

/-- Folding sizes with an accumulator equals the accumulator plus the sum. -/
theorem foldl_size_eq_sum (l : List ChartImageBlob) :
    ∀ init : Nat,
      l.foldl (fun total blob => total + blob.size) init
        = init + (l.map (fun b => b.size)).sum := by
  induction l with
  | nil => intro init; simp
  | cons b rest ih =>
    intro init
    simp only [List.foldl_cons, List.map_cons, List.sum_cons, ih]
    omega

/-- Claim C9: `getStorageStats` aggregates over blob rows only — total and
blob counts equal the number of blob rows, total and blob sizes equal the sum
of their `size` fields, and the inline counters are always 0. -/
theorem getStorageStats_spec (allBlobs : BlobStoreState) :
    (ChartImageService.getStorageStats allBlobs).totalImages = allBlobs.length ∧
    (ChartImageService.getStorageStats allBlobs).blobImages = allBlobs.length ∧
    (ChartImageService.getStorageStats allBlobs).totalSize
      = (allBlobs.map (fun b => b.size)).sum ∧
    (ChartImageService.getStorageStats allBlobs).blobSize
      = (allBlobs.map (fun b => b.size)).sum ∧
    (ChartImageService.getStorageStats allBlobs).inlineImages = 0 ∧
    (ChartImageService.getStorageStats allBlobs).inlineSize = 0 := by
  unfold ChartImageService.getStorageStats
  simp [foldl_size_eq_sum]

/-! ## Claim C3: delete against the blob store -/

/-- Claim C3: deleting an inline descriptor is a no-op against the blob store,
while deleting a blob descriptor issues the gateway delete for its blob id —
when that delete succeeds, exactly the row with that id is removed. -/
theorem deleteChartImage_blob_effect (delOk : String → Bool)
    (store : BlobStoreState) (tradeId : String) (imageType : ImageType)
    (ci : ChartImage) :
    (ci.storage = Storage.inlineStore →
      ChartImageService.deleteChartImage delOk store tradeId imageType ci
        = (true, store)) ∧
    (∀ bid : String, ci.storage = Storage.blobStore → ci.blobId = some bid →
      ChartImageService.deleteChartImage delOk store tradeId imageType ci
        = (true, (DatabaseService.deleteChartImageBlob store bid (delOk bid)).2)) ∧
    (∀ bid : String, ci.storage = Storage.blobStore → ci.blobId = some bid →
      delOk bid = true →
      ChartImageService.deleteChartImage delOk store tradeId imageType ci
        = (true, store.filter (fun b => b.id != bid))) := by
  refine ⟨?_, ?_, ?_⟩
  · intro hst
    unfold ChartImageService.deleteChartImage
    cases hb : ci.blobId <;> simp [hst, hb]
  · intro bid hst hb
    unfold ChartImageService.deleteChartImage
    simp [hst, hb]
  · intro bid hst hb hok
    unfold ChartImageService.deleteChartImage
    simp [hst, hb, DatabaseService.deleteChartImageBlob, hok]

/-- A sample blob row for concrete witnesses. -/
def sampleBlobRow : ChartImageBlob :=
  { id := "b1", tradeId := "t1", imageType := ImageType.beforeEntry
    filename := "a.png", mimeType := "image/png", size := 200000 }

/-- A sample inline descriptor for concrete witnesses. -/
def sampleInlineImage : ChartImage :=
  { id := "i1", filename := "a.png", mimeType := "image/png", size := 1000
    uploadedAt := 0, storage := Storage.inlineStore }

/-- A sample blob descriptor referencing `sampleBlobRow`. -/
def sampleBlobImage : ChartImage :=
  { id := "i2", filename := "a.png", mimeType := "image/png", size := 200000
    uploadedAt := 0, storage := Storage.blobStore, blobId := some "b1" }

/-- Witness for C3 at concrete descriptors: the inline delete leaves the
one-row store intact, and the blob delete with a succeeding gateway removes
the referenced row. -/
theorem deleteChartImage_blob_effect_witness :
    ChartImageService.deleteChartImage (fun _ => true) [sampleBlobRow] "t1"
        ImageType.beforeEntry sampleInlineImage = (true, [sampleBlobRow]) ∧
    ChartImageService.deleteChartImage (fun _ => true) [sampleBlobRow] "t1"
        ImageType.beforeEntry sampleBlobImage = (true, []) := by
  constructor
  · exact (deleteChartImage_blob_effect (fun _ => true) [sampleBlobRow] "t1"
      ImageType.beforeEntry sampleInlineImage).1 rfl
  · have h := (deleteChartImage_blob_effect (fun _ => true) [sampleBlobRow] "t1"
      ImageType.beforeEntry sampleBlobImage).2.2 "b1" rfl rfl rfl
    rw [h]
    rfl

/-! ## Claim C7: soft-fail deletes and slot clearing -/

/-- Claim C7: even when the gateway delete reports failure, `deleteChartImage`
and `deleteTradeChartImages` still return `true`; and `handleDelete` clears
the in-memory slot exactly when the returned value is `true`. -/
theorem delete_soft_fail_clears_slot :
    (∀ (delOk : String → Bool) (store : BlobStoreState) (tid : String)
        (ty : ImageType) (ci : ChartImage),
      (ChartImageService.deleteChartImage delOk store tid ty ci).1 = true) ∧
    (∀ (ok : Bool) (store : BlobStoreState) (tid : String),
      (ChartImageService.deleteTradeChartImages ok store tid).1 = true) ∧
    (∀ (img : ChartImage) (result : Bool),
      (handleDelete false (some img) result = none ↔ result = true)) := by
  refine ⟨?_, ?_, ?_⟩
  · intro delOk store tid ty ci
    unfold ChartImageService.deleteChartImage
    split <;> rfl
  · intro ok store tid
    rfl
  · intro img result
    cases result <;> simp [handleDelete]

end ChartSpec

namespace ChartSpec
/-! ## Claims C1 and C8: orphan cleanup -/

/-- A blob of a live trade is skipped by the cleanup loop. -/
theorem cleanupStep_kept {tradeIds : List String} {delOk : String → Bool}
    {store : BlobStoreState} {c e : Nat} {b : ChartImageBlob}
    (h : tradeIds.contains b.tradeId = true) :
    ChartImageService.cleanupStep tradeIds delOk (store, c, e) b
      = (store, c, e) := by
  unfold ChartImageService.cleanupStep
  rw [h]
  rfl

/-- An orphaned blob whose gateway delete succeeds is removed from the store
and counted as cleaned. -/
theorem cleanupStep_orphan_ok {tradeIds : List String} {delOk : String → Bool}
    {store : BlobStoreState} {c e : Nat} {b : ChartImageBlob}
    (h : tradeIds.contains b.tradeId = false) (hd : delOk b.id = true) :
    ChartImageService.cleanupStep tradeIds delOk (store, c, e) b
      = (store.filter (fun x => x.id != b.id), c + 1, e) := by
  unfold ChartImageService.cleanupStep DatabaseService.deleteChartImageBlob
  rw [h, hd]
  rfl

/-- An orphaned blob whose gateway delete fails leaves the store unchanged
and is counted as an error; the loop then continues. -/
theorem cleanupStep_orphan_fail {tradeIds : List String} {delOk : String → Bool}
    {store : BlobStoreState} {c e : Nat} {b : ChartImageBlob}
    (h : tradeIds.contains b.tradeId = false) (hd : delOk b.id = false) :
    ChartImageService.cleanupStep tradeIds delOk (store, c, e) b
      = (store, c, e + 1) := by
  unfold ChartImageService.cleanupStep DatabaseService.deleteChartImageBlob
  rw [h, hd]
  rfl

/-- Counter invariant of the cleanup fold: from any starting state, cleaned
grows by the orphans whose delete succeeds and errors by the orphans whose
delete fails. -/
theorem cleanup_counts_aux (tradeIds : List String) (delOk : String → Bool)
    (l : List ChartImageBlob) :
    ∀ (store : BlobStoreState) (c e : Nat),
      ((l.foldl (ChartImageService.cleanupStep tradeIds delOk) (store, c, e)).2.1
        = c + (l.filter (fun b =>
            ChartImageService.isOrphan tradeIds b && delOk b.id)).length) ∧
      ((l.foldl (ChartImageService.cleanupStep tradeIds delOk) (store, c, e)).2.2
        = e + (l.filter (fun b =>
            ChartImageService.isOrphan tradeIds b && !delOk b.id)).length) := by
  induction l with
  | nil => intro store c e; simp
  | cons b rest ih =>
    intro store c e
    cases hor : tradeIds.contains b.tradeId with
    | true =>
      have hOrb : ChartImageService.isOrphan tradeIds b = false := by
        unfold ChartImageService.isOrphan
        rw [hor]
        rfl
      rw [List.foldl_cons, cleanupStep_kept hor]
      have h := ih store c e
      constructor
      · rw [h.1, List.filter_cons]
        simp [hOrb]
      · rw [h.2, List.filter_cons]
        simp [hOrb]
    | false =>
      have hOrb : ChartImageService.isOrphan tradeIds b = true := by
        unfold ChartImageService.isOrphan
        rw [hor]
        rfl
      cases hd : delOk b.id with
      | true =>
        rw [List.foldl_cons, cleanupStep_orphan_ok hor hd]
        have h := ih (store.filter (fun x => x.id != b.id)) (c + 1) e
        constructor
        · rw [h.1, List.filter_cons]
          simp only [hOrb, hd, Bool.true_and, if_pos, List.length_cons]
          omega
        · rw [h.2, List.filter_cons]
          simp [hOrb, hd]
      | false =>
        rw [List.foldl_cons, cleanupStep_orphan_fail hor hd]
        have h := ih store c (e + 1)
        constructor
        · rw [h.1, List.filter_cons]
          simp [hOrb, hd]
        · rw [h.2, List.filter_cons]
          simp only [hOrb, hd, Bool.true_and, Bool.not_false, if_pos,
            List.length_cons]
          omega

/-- Splitting a filter by a second condition splits its length. -/
theorem length_filter_split {α : Type} (p q : α → Bool) (l : List α) :
    (l.filter (fun a => p a && q a)).length
      + (l.filter (fun a => p a && !q a)).length
      = (l.filter p).length := by
  induction l with
  | nil => rfl
  | cons a rest ih =>
    by_cases hp : p a <;> by_cases hq : q a <;>
      simp [List.filter_cons, hp, hq] <;> omega

/-- Claim C8: `cleanupOrphanedBlobs` does not abort on a per-blob deletion
failure — cleaned counts the orphans whose delete succeeded, errors counts
the orphans whose delete failed, and cleaned + errors equals the number of
orphaned blobs processed. -/
theorem cleanupOrphanedBlobs_counts (allBlobs : BlobStoreState)
    (tradeIds : List String) (delOk : String → Bool) :
    ((ChartImageService.cleanupOrphanedBlobs allBlobs tradeIds delOk).2.1
      = (allBlobs.filter (fun b =>
          ChartImageService.isOrphan tradeIds b && delOk b.id)).length) ∧
    ((ChartImageService.cleanupOrphanedBlobs allBlobs tradeIds delOk).2.2
      = (allBlobs.filter (fun b =>
          ChartImageService.isOrphan tradeIds b && !delOk b.id)).length) ∧
    (ChartImageService.cleanupOrphanedBlobs allBlobs tradeIds delOk).2.1
        + (ChartImageService.cleanupOrphanedBlobs allBlobs tradeIds delOk).2.2
      = (allBlobs.filter (ChartImageService.isOrphan tradeIds)).length := by
  have h := cleanup_counts_aux tradeIds delOk allBlobs allBlobs 0 0
  unfold ChartImageService.cleanupOrphanedBlobs
  refine ⟨by simpa using h.1, by simpa using h.2, ?_⟩
  rw [h.1, h.2]
  have hs := length_filter_split (ChartImageService.isOrphan tradeIds)
    (fun b => delOk b.id) allBlobs
  simpa using hs

/-- Ids of the orphaned rows of a blob list. -/
def orphanIds (tradeIds : List String) (l : List ChartImageBlob) :
    List String :=
  (l.filter (ChartImageService.isOrphan tradeIds)).map (fun b => b.id)

/-- Store invariant of the cleanup fold when every gateway delete succeeds:
from any starting store, the fold removes exactly the rows whose id is an
orphan id of the processed list. -/
theorem cleanup_store_aux (tradeIds : List String) (delOk : String → Bool)
    (hok : ∀ id : String, delOk id = true) (l : List ChartImageBlob) :
    ∀ (store : BlobStoreState) (c e : Nat),
      (l.foldl (ChartImageService.cleanupStep tradeIds delOk) (store, c, e)).1
        = store.filter (fun b => !(orphanIds tradeIds l).contains b.id) := by
  induction l with
  | nil =>
    intro store c e
    simp [orphanIds]
  | cons b rest ih =>
    intro store c e
    cases hor : tradeIds.contains b.tradeId with
    | true =>
      have hOrb : ChartImageService.isOrphan tradeIds b = false := by
        unfold ChartImageService.isOrphan
        rw [hor]
        rfl
      rw [List.foldl_cons, cleanupStep_kept hor, ih]
      have horph : orphanIds tradeIds (b :: rest)
          = orphanIds tradeIds rest := by
        unfold orphanIds
        rw [List.filter_cons, hOrb]
        rfl
      rw [horph]
    | false =>
      have hOrb : ChartImageService.isOrphan tradeIds b = true := by
        unfold ChartImageService.isOrphan
        rw [hor]
        rfl
      rw [List.foldl_cons, cleanupStep_orphan_ok hor (hok b.id), ih,
        List.filter_filter]
      have horph : orphanIds tradeIds (b :: rest)
          = b.id :: orphanIds tradeIds rest := by
        unfold orphanIds
        rw [List.filter_cons, hOrb]
        rfl
      rw [horph]
      apply List.filter_congr
      intro x _
      simp only [List.contains_cons, Bool.not_or, bne]
      rw [Bool.and_comm]

/-- Claim C1: when every gateway delete succeeds and blob ids are unique (as
database keys are), `cleanupOrphanedBlobs` deletes exactly the blob rows
whose trade id is not a current trade id and leaves every row of a live
trade untouched: the final store is the original list filtered to the rows
whose trade id is current. -/
theorem cleanupOrphanedBlobs_exact (allBlobs : BlobStoreState)
    (tradeIds : List String) (delOk : String → Bool)
    (hok : ∀ id : String, delOk id = true)
    (hnodup : (allBlobs.map (fun b => b.id)).Nodup) :
    (ChartImageService.cleanupOrphanedBlobs allBlobs tradeIds delOk).1
      = allBlobs.filter (fun b => tradeIds.contains b.tradeId) := by
  unfold ChartImageService.cleanupOrphanedBlobs
  rw [cleanup_store_aux tradeIds delOk hok allBlobs allBlobs 0 0]
  apply List.filter_congr
  intro b hb
  cases hcb : tradeIds.contains b.tradeId with
  | true =>
    have hni : (orphanIds tradeIds allBlobs).contains b.id = false := by
      by_contra hc
      rw [Bool.not_eq_false, List.contains_iff_exists_mem_beq] at hc
      obtain ⟨a', ha', hbeq⟩ := hc
      unfold orphanIds at ha'
      rw [List.mem_map] at ha'
      obtain ⟨b', hb'mem, hb'id⟩ := ha'
      rw [List.mem_filter] at hb'mem
      have hbb : b' = b := by
        apply List.inj_on_of_nodup_map hnodup hb'mem.1 hb
        show b'.id = b.id
        rw [hb'id]
        exact (beq_iff_eq.mp hbeq).symm
      have horb : ChartImageService.isOrphan tradeIds b = true :=
        hbb ▸ hb'mem.2
      unfold ChartImageService.isOrphan at horb
      rw [hcb] at horb
      exact absurd horb (by decide)
    rw [hni]
    rfl
  | false =>
    have hyes : (orphanIds tradeIds allBlobs).contains b.id = true := by
      rw [List.contains_iff_exists_mem_beq]
      refine ⟨b.id, ?_, by simp⟩
      unfold orphanIds
      rw [List.mem_map]
      refine ⟨b, ?_, rfl⟩
      rw [List.mem_filter]
      refine ⟨hb, ?_⟩
      unfold ChartImageService.isOrphan
      rw [hcb]
      rfl
    rw [hyes]
    rfl

/-- A sample orphaned blob row (its trade id matches no trade). -/
def orphanBlobRow : ChartImageBlob :=
  { id := "b2", tradeId := "t9", imageType := ImageType.afterExit
    filename := "c.png", mimeType := "image/png", size := 7 }

/-- Witness for C1 on a concrete store: the orphaned row is deleted and the
live trade's row is kept. -/
theorem cleanupOrphanedBlobs_exact_witness :
    (ChartImageService.cleanupOrphanedBlobs [sampleBlobRow, orphanBlobRow]
        ["t1"] (fun _ => true)).1 = [sampleBlobRow] := by
  have h := cleanupOrphanedBlobs_exact [sampleBlobRow, orphanBlobRow] ["t1"]
    (fun _ => true) (fun _ => rfl) (by decide)
  rw [h]
  rfl

end ChartSpec

namespace ChartSpec

/-! ## Attach policy (createChartImage is modelled; attach is from source) -/

/-- An uploaded file as the storage policy sees it: name, MIME type, size. -/
structure ImgFile where
  name : String
  mimeType : String
  size : Nat
  deriving DecidableEq, Repr

/-- Configuration shape: MIME allow-list and the two size limits. -/
structure ChartImageConfig where
  allowedTypes : List String
  maxFileSize : Nat
  inlineThreshold : Nat
  deriving DecidableEq, Repr

/-- Modelled from the spec: `CHART_IMAGE_CONFIG` from `utils/chartImageUtils`
is not under `src/`; the spec fixes only that there is a fixed allow-list of
image MIME types, a maximum file size and an inline-vs-blob threshold, so
representative values are used. -/
def CHART_IMAGE_CONFIG : ChartImageConfig :=
  { allowedTypes := ["image/png", "image/jpeg", "image/webp"]
    maxFileSize := 5 * 1024 * 1024
    inlineThreshold := 100 * 1024 }

/-- Size of the payload after the optional compression step; the compressor
itself is abstract (`compressSize`). -/
def payloadSize (compressSize : Nat → Nat) (file : ImgFile)
    (shouldCompress : Bool) : Nat :=
  if shouldCompress then compressSize file.size else file.size

/-- Modelled from the spec: `createChartImage` from `utils/chartImageUtils`
is not under `src/`. Per the spec it validates the MIME type against the
allow-list and the size against the maximum, optionally compresses, and
chooses inline storage when the resulting payload is under the size
threshold and blob storage (with a fresh blob id) otherwise; a validation
failure is a thrown error, modelled as `Except.error`. -/
def createChartImage (cfg : ChartImageConfig) (compressSize : Nat → Nat)
    (freshId freshBlobId : String) (file : ImgFile) (shouldCompress : Bool) :
    Except String ChartImage :=
  if !(cfg.allowedTypes.contains file.mimeType) then
    Except.error "Invalid file type"
  else if cfg.maxFileSize < file.size then
    Except.error "File too large"
  else if payloadSize compressSize file shouldCompress < cfg.inlineThreshold then
    Except.ok
      { id := freshId, filename := file.name, mimeType := file.mimeType
        size := payloadSize compressSize file shouldCompress, uploadedAt := 0
        storage := Storage.inlineStore, blobId := none
        compressed := shouldCompress, originalSize := some file.size }
  else
    Except.ok
      { id := freshId, filename := file.name, mimeType := file.mimeType
        size := payloadSize compressSize file shouldCompress, uploadedAt := 0
        storage := Storage.blobStore, blobId := some freshBlobId
        compressed := shouldCompress, originalSize := some file.size }

/-- Result record of `attachChartImage`. -/
structure AttachResult where
  success : Bool
  chartImage : Option ChartImage := none
  error : Option String := none
  deriving DecidableEq, Repr

namespace ChartImageService

/-- Method `ChartImageService.attachChartImage`: create the chart image; for
a blob-stored descriptor save the blob row through the gateway, failing the
whole operation when that save fails; otherwise report success with the
descriptor. A thrown creation error is caught and reported as failure. -/
def attachChartImage (cfg : ChartImageConfig) (compressSize : Nat → Nat)
    (freshId freshBlobId : String) (saveOk : Bool) (store : BlobStoreState)
    (tradeId : String) (imageType : ImageType) (file : ImgFile)
    (shouldCompress : Bool) : AttachResult × BlobStoreState :=
  match createChartImage cfg compressSize freshId freshBlobId file
      shouldCompress with
  | Except.error e => ({ success := false, error := some e }, store)
  | Except.ok chartImage =>
    match chartImage.storage, chartImage.blobId with
    | Storage.blobStore, some bid =>
      let imageBlob : ChartImageBlob :=
        { id := bid, tradeId := tradeId, imageType := imageType
          filename := chartImage.filename, mimeType := chartImage.mimeType
          size := chartImage.size }
      let saved := DatabaseService.saveChartImageBlob store imageBlob saveOk
      if saved.1 then
        ({ success := true, chartImage := some chartImage }, saved.2)
      else
        ({ success := false
           error := some "Failed to save image blob to database" }, saved.2)
    | _, _ => ({ success := true, chartImage := some chartImage }, store)

end ChartImageService

/-! ## Claim C2: inline-vs-blob storage policy -/

/-- Claim C2: for a valid file, the attach operation yields an inline
descriptor (and touches no blob row) when the possibly-compressed payload is
under the threshold; at or above the threshold it yields a blob descriptor,
and on success its blob id resolves to a row saved in the store, while a
failed blob save fails the whole operation. -/
theorem attachChartImage_storage_policy (cfg : ChartImageConfig)
    (compressSize : Nat → Nat) (freshId freshBlobId : String) (saveOk : Bool)
    (store : BlobStoreState) (tradeId : String) (imageType : ImageType)
    (file : ImgFile) (shouldCompress : Bool)
    (hmime : cfg.allowedTypes.contains file.mimeType = true)
    (hsize : file.size ≤ cfg.maxFileSize) :
    (payloadSize compressSize file shouldCompress < cfg.inlineThreshold →
      (ChartImageService.attachChartImage cfg compressSize freshId freshBlobId
          saveOk store tradeId imageType file shouldCompress).1.success = true ∧
      (∃ ci : ChartImage,
        (ChartImageService.attachChartImage cfg compressSize freshId
            freshBlobId saveOk store tradeId imageType file
            shouldCompress).1.chartImage = some ci ∧
        ci.storage = Storage.inlineStore) ∧
      (ChartImageService.attachChartImage cfg compressSize freshId freshBlobId
          saveOk store tradeId imageType file shouldCompress).2 = store) ∧
    (cfg.inlineThreshold ≤ payloadSize compressSize file shouldCompress →
      (saveOk = true →
        (ChartImageService.attachChartImage cfg compressSize freshId
            freshBlobId saveOk store tradeId imageType file
            shouldCompress).1.success = true ∧
        (∃ ci : ChartImage,
          (ChartImageService.attachChartImage cfg compressSize freshId
              freshBlobId saveOk store tradeId imageType file
              shouldCompress).1.chartImage = some ci ∧
          ci.storage = Storage.blobStore ∧ ci.blobId = some freshBlobId) ∧
        (∃ b ∈ (ChartImageService.attachChartImage cfg compressSize freshId
            freshBlobId saveOk store tradeId imageType file shouldCompress).2,
          b.id = freshBlobId)) ∧
      (saveOk = false →
        (ChartImageService.attachChartImage cfg compressSize freshId
            freshBlobId saveOk store tradeId imageType file
            shouldCompress).1.success = false)) := by
  unfold ChartImageService.attachChartImage createChartImage
  rw [hmime]
  rw [if_neg (by simp : ¬((!true) = true))]
  rw [if_neg (by omega : ¬(cfg.maxFileSize < file.size))]
  cases hp : decide (payloadSize compressSize file shouldCompress
      < cfg.inlineThreshold) with
  | true =>
    rw [if_pos (of_decide_eq_true hp)]
    constructor
    · intro hlt
      exact ⟨rfl, ⟨_, rfl, rfl⟩, rfl⟩
    · intro hge
      exact absurd (of_decide_eq_true hp) (by omega)
  | false =>
    rw [if_neg (of_decide_eq_false hp)]
    constructor
    · intro hlt
      exact absurd hlt (of_decide_eq_false hp)
    · intro hge
      constructor
      · intro hsok
        subst hsok
        unfold DatabaseService.saveChartImageBlob
        refine ⟨rfl, ⟨_, rfl, rfl, rfl⟩, ?_⟩
        refine ⟨{ id := freshBlobId, tradeId := tradeId
                  imageType := imageType, filename := file.name
                  mimeType := file.mimeType
                  size := payloadSize compressSize file shouldCompress }, ?_, rfl⟩
        simp
      · intro hsfail
        subst hsfail
        unfold DatabaseService.saveChartImageBlob
        rfl

end ChartSpec

namespace ChartSpec

/-- A sample file above the inline threshold. -/
def sampleBigFile : ImgFile :=
  { name := "big.png", mimeType := "image/png", size := 204800 }

/-- Witness for C2 at a concrete oversized file: the attach succeeds with a
blob record whose id resolves in the resulting store. -/
theorem attachChartImage_storage_policy_witness :
    (ChartImageService.attachChartImage CHART_IMAGE_CONFIG (fun n => n) "i1"
        "bX" true [] "t1" ImageType.beforeEntry sampleBigFile false).1.success
      = true ∧
    ∃ b ∈ (ChartImageService.attachChartImage CHART_IMAGE_CONFIG (fun n => n)
        "i1" "bX" true [] "t1" ImageType.beforeEntry sampleBigFile false).2,
      b.id = "bX" := by
  have h := attachChartImage_storage_policy CHART_IMAGE_CONFIG (fun n => n)
    "i1" "bX" true [] "t1" ImageType.beforeEntry sampleBigFile false
    (by rfl) (by decide)
  have h2 := (h.2 (by decide)).1 rfl
  exact ⟨h2.1, h2.2.2⟩

/-! ## Claim C10: attachment validation (a small JavaScript value model) -/

/-- A JavaScript value, as far as the validators inspect one: primitives,
`Date` objects, and plain objects as association lists of fields. -/
inductive JSVal where
  | vUndefined
  | vNull
  | vBool (b : Bool)
  | vNum (n : Int)
  | vStr (s : String)
  | vDate (time : Int)
  | vObj (fields : List (String × JSVal))

/-- JavaScript truthiness: `undefined`, `null`, `false`, `0` and the empty
string are falsy; every object (including a `Date`) is truthy. -/
def truthy : JSVal → Bool
  | .vUndefined => false
  | .vNull => false
  | .vBool b => b
  | .vNum n => n != 0
  | .vStr s => s != ""
  | .vDate _ => true
  | .vObj _ => true

/-- JavaScript `typeof`: note `typeof null` is `"object"`, as is a `Date`. -/
def typeOf : JSVal → String
  | .vUndefined => "undefined"
  | .vNull => "object"
  | .vBool _ => "boolean"
  | .vNum _ => "number"
  | .vStr _ => "string"
  | .vDate _ => "object"
  | .vObj _ => "object"

/-- First binding of a field name in an association list. -/
def lookupField : List (String × JSVal) → String → JSVal
  | [], _ => JSVal.vUndefined
  | (k, v) :: rest, name => if k == name then v else lookupField rest name

/-- Property access `v.name`: `undefined` on everything but a plain object
carrying the field. -/
def getField : JSVal → String → JSVal
  | .vObj fields, name => lookupField fields name
  | _, _ => JSVal.vUndefined

/-- Strict equality of a value with a string literal (`v === "s"`). -/
def strictEqStr (v : JSVal) (s : String) : Bool :=
  match v with
  | .vStr t => t == s
  | _ => false

/-- Test `v instanceof Date`. -/
def isDateVal : JSVal → Bool
  | .vDate _ => true
  | _ => false

/-- Test `CHART_IMAGE_CONFIG.ALLOWED_TYPES.includes(v)`: array `includes`
compares strictly, so only a string can match. -/
def allowedTypesIncludes (v : JSVal) : Bool :=
  match v with
  | .vStr t => CHART_IMAGE_CONFIG.allowedTypes.contains t
  | _ => false

namespace ChartImageService

/-- Method `ChartImageService.validateChartImage`: the conjunction of
truthiness, object type, string id/filename/mimeType, numeric size,
`uploadedAt instanceof Date`, storage `"inline"` or `"blob"`, and an
allow-listed MIME type. -/
def validateChartImage (chartImage : JSVal) : Bool :=
  truthy chartImage &&
  (typeOf chartImage == "object") &&
  (typeOf (getField chartImage "id") == "string") &&
  (typeOf (getField chartImage "filename") == "string") &&
  (typeOf (getField chartImage "mimeType") == "string") &&
  (typeOf (getField chartImage "size") == "number") &&
  isDateVal (getField chartImage "uploadedAt") &&
  (strictEqStr (getField chartImage "storage") "inline" ||
    strictEqStr (getField chartImage "storage") "blob") &&
  allowedTypesIncludes (getField chartImage "mimeType")

/-- Method `ChartImageService.validateChartAttachments`: reject non-objects
and falsy values; check `beforeEntry` and `afterExit` only when present
(truthy); accept everything else. -/
def validateChartAttachments (chartAttachments : JSVal) : Bool :=
  if !truthy chartAttachments || !(typeOf chartAttachments == "object") then
    false
  else if truthy (getField chartAttachments "beforeEntry")
      && !validateChartImage (getField chartAttachments "beforeEntry") then
    false
  else if truthy (getField chartAttachments "afterExit")
      && !validateChartImage (getField chartAttachments "afterExit") then
    false
  else
    true

end ChartImageService

/-- Claim C10: `validateChartAttachments` returns false exactly on inputs
that are not truthy objects or whose present (truthy) `beforeEntry` or
`afterExit` entry fails the per-image check, so any object whose two entries
are absent or falsy — the empty object, a null entry, a zero, an empty
string — is accepted. -/
theorem validateChartAttachments_spec :
    (∀ v : JSVal,
      ChartImageService.validateChartAttachments v =
        ((truthy v && (typeOf v == "object")) &&
         (!truthy (getField v "beforeEntry") ||
           ChartImageService.validateChartImage (getField v "beforeEntry")) &&
         (!truthy (getField v "afterExit") ||
           ChartImageService.validateChartImage (getField v "afterExit")))) ∧
    ChartImageService.validateChartAttachments (JSVal.vObj []) = true ∧
    ChartImageService.validateChartAttachments
      (JSVal.vObj [("beforeEntry", JSVal.vNull)]) = true ∧
    ChartImageService.validateChartAttachments
      (JSVal.vObj [("beforeEntry", JSVal.vNum 0),
        ("afterExit", JSVal.vStr "")]) = true ∧
    ChartImageService.validateChartAttachments JSVal.vNull = false ∧
    ChartImageService.validateChartAttachments (JSVal.vStr "x") = false ∧
    ChartImageService.validateChartAttachments
      (JSVal.vObj [("beforeEntry", JSVal.vBool true)]) = false := by
  refine ⟨?_, rfl, rfl, rfl, rfl, rfl, rfl⟩
  intro v
  unfold ChartImageService.validateChartAttachments
  cases h1 : truthy v <;>
    cases h2 : (typeOf v == "object") <;>
      cases h3 : truthy (getField v "beforeEntry") <;>
        cases h4 : ChartImageService.validateChartImage
            (getField v "beforeEntry") <;>
          cases h5 : truthy (getField v "afterExit") <;>
            cases h6 : ChartImageService.validateChartImage
                (getField v "afterExit") <;>
              simp [h1, h2, h3, h4, h5, h6]

end ChartSpec

namespace ChartSpec

/-- Witness for C7: with a gateway whose delete always reports failure, the
per-image and per-trade deletes still return true, and the caller clears the
slot on a true result. -/
theorem delete_soft_fail_clears_slot_witness :
    (ChartImageService.deleteChartImage (fun _ => false) [sampleBlobRow] "t1"
        ImageType.beforeEntry sampleBlobImage).1 = true ∧
    (ChartImageService.deleteTradeChartImages false [sampleBlobRow] "t1").1
      = true ∧
    handleDelete false (some sampleBlobImage) true = none := by
  have h := delete_soft_fail_clears_slot
  exact ⟨h.1 (fun _ => false) [sampleBlobRow] "t1" ImageType.beforeEntry
      sampleBlobImage,
    h.2.1 false [sampleBlobRow] "t1",
    (h.2.2 sampleBlobImage true).mpr rfl⟩

end ChartSpec
